import Mathlib

/-!
Shallow embedding of the IAM_ROLE_NOT_USED AWS Config rule
(src/IAM_ROLE_NOT_USED/IAM_ROLE_NOT_USED.py).

Modelling conventions:
* Python dictionaries are association lists preserving insertion order;
  `pyGet` is `dict.get` (returns `none` for a missing key), `pySet` is
  item assignment (replaces the first binding in place, appends a new key).
* Python values appearing in the rule-parameter dict are either strings or
  integers (`Value`).
* Python truthiness of a parameter value: a string is truthy iff non-empty,
  an integer iff non-zero, a missing value (`None`) is falsy.
* Python `int(str)` over ASCII input: strips leading/trailing whitespace,
  allows one optional sign, then decimal digits with single underscores
  permitted between digits.  A failed parse models the `ValueError`.
* Timestamps are integer seconds; `timedelta.days` of `a - b` is the floor
  division `Int.fdiv (a - b) 86400`, matching Python's floored `//`.
* `evaluate_parameters` mutates its argument dict in place and returns that
  same dict; the `Except.ok` payload is the final state of the input dict.
-/

/-- A Python value stored in the rule-parameter dict: a string or an int. -/
inductive Value where
  | VStr (s : String)
  | VInt (n : Int)
deriving DecidableEq, Repr

/-- A Python dict with string keys, as an insertion-ordered association list. -/
abbrev PyDict := List (String × Value)

/-- `dict.get(k)`: the value at the first binding of `k`, or `none`. -/
def pyGet {α : Type} (m : List (String × α)) (k : String) : Option α :=
  match m with
  | [] => none
  | (k', v) :: rest => if k' = k then some v else pyGet rest k

/-- `dict[k] = v`: replace the first binding of `k` in place, else append. -/
def pySet {α : Type} (m : List (String × α)) (k : String) (v : α) :
    List (String × α) :=
  match m with
  | [] => [(k, v)]
  | (k', v') :: rest => if k' = k then (k, v) :: rest else (k', v') :: pySet rest k v

/-- Python truthiness of a `Value`: non-empty string / non-zero integer. -/
def vTruthy : Value → Bool
  | Value.VStr s => !s.toList.isEmpty
  | Value.VInt n => n != 0

/-- Python truthiness of `dict.get(k)`: `None` (missing) is falsy. -/
def vTruthyOpt : Option Value → Bool
  | none => false
  | some v => vTruthy v

/-- ASCII decimal digit test (by code point, 48–57). -/
def isDig (c : Char) : Bool := 48 ≤ c.toNat && c.toNat ≤ 57

/-- ASCII whitespace stripped by Python `int(str)`:
space, tab, newline, carriage return, form feed, vertical tab. -/
def isPySpace (c : Char) : Bool :=
  c.toNat == 32 || c.toNat == 9 || c.toNat == 10 ||
  c.toNat == 13 || c.toNat == 12 || c.toNat == 11

/-- Digit-run scanner for Python `int(str)`: after an initial digit, each
further character is a digit or a single underscore followed by a digit. -/
def goDigits (acc : Nat) : List Char → Option Nat
  | [] => some acc
  | c :: cs =>
    if isDig c then goDigits (acc * 10 + (c.toNat - 48)) cs
    else if c = '_' then
      match cs with
      | [] => none
      | c2 :: cs2 =>
        if isDig c2 then goDigits (acc * 10 + (c2.toNat - 48)) cs2 else none
    else none

/-- Parse an unsigned decimal numeral (with Python underscore grouping);
fails on the empty string or a leading underscore. -/
def parseUDigits : List Char → Option Nat
  | [] => none
  | c :: cs => if isDig c then goDigits (c.toNat - 48) cs else none

/-- Python `int(s)` for an ASCII string `s`: strip whitespace on both ends,
accept one optional sign, then a digit run.  `none` models the `ValueError`. -/
def pyStrToInt (s : String) : Option Int :=
  let cs := s.toList.dropWhile isPySpace
  let cs := (cs.reverse.dropWhile isPySpace).reverse
  match cs with
  | [] => none
  | c :: rest =>
    if c = '-' then (parseUDigits rest).map (fun n => -(n : Int))
    else if c = '+' then (parseUDigits rest).map (fun n => (n : Int))
    else (parseUDigits (c :: rest)).map (fun n => (n : Int))

/-- Python `int(v)` for a dict value: the identity on ints, string parsing on
strings; `none` models the `ValueError` caught by the rule. -/
def pyIntOf : Value → Option Int
  | Value.VInt n => some n
  | Value.VStr s => pyStrToInt s

/-- Default staleness threshold (`DEFAULT_DAYS = 90`). -/
def DEFAULT_DAYS : Int := 90

/-- Exceptions that can escape `evaluate_parameters`:
`InvalidParametersError` with its message, or a slip-path `KeyError`. -/
inductive PyErr where
  | invalidParameters (msg : String)
  | keyError
deriving DecidableEq, Repr

/-- `IAM_ROLE_NOT_USED.evaluate_parameters(rule_parameters)`.
Substitutes `DEFAULT_DAYS` when `rule_parameters.get('DaysBeforeUnused')` is
falsy, then overwrites the entry with `int(...)` (raising
`InvalidParametersError` on a parse failure), then rejects negatives.
The `ok` payload is the final state of the (in-place mutated and returned)
dict.  The `keyError` branch mirrors Python's `rule_parameters[k]` lookup,
which cannot in fact fail here. -/
def evaluate_parameters (rp : PyDict) : Except PyErr PyDict :=
  let rp1 := if vTruthyOpt (pyGet rp "DaysBeforeUnused") then rp
             else pySet rp "DaysBeforeUnused" (Value.VInt DEFAULT_DAYS)
  match pyGet rp1 "DaysBeforeUnused" with
  | none => Except.error PyErr.keyError
  | some v =>
    match pyIntOf v with
    | none => Except.error (PyErr.invalidParameters
        "The parameter \"DaysBeforeUnused\" must be a integer")
    | some n =>
      let rp2 := pySet rp1 "DaysBeforeUnused" (Value.VInt n)
      if n < 0 then Except.error (PyErr.invalidParameters
        "The parameter \"DaysBeforeUnused\" must be greater than or equal to 0")
      else Except.ok rp2

/-- The value the rule parses after the default substitution: the entry at
`DaysBeforeUnused` when it is truthy, else the substituted `DEFAULT_DAYS`. -/
def substitutedValue (m : PyDict) : Value :=
  if vTruthyOpt (pyGet m "DaysBeforeUnused") then
    (pyGet m "DaysBeforeUnused").getD (Value.VInt DEFAULT_DAYS)
  else Value.VInt DEFAULT_DAYS

/-- `APPLICABLE_RESOURCES = ['AWS::IAM::Role']`. -/
def APPLICABLE_RESOURCES : List String := ["AWS::IAM::Role"]

/-- One role record from the paginated `list_roles` output: the role name,
the creation timestamp (always present), and the optional `RoleLastUsed`
sub-dict (absent, or a string-keyed dict that may hold `LastUsedDate`). -/
structure RoleData where
  roleName : String
  createDate : Int
  roleLastUsed : Option (List (String × Int))
deriving DecidableEq, Repr

/-- The rdklib compliance verdicts used by the rule. -/
inductive ComplianceType where
  | COMPLIANT
  | NON_COMPLIANT
deriving DecidableEq, Repr

/-- An rdklib `Evaluation(complianceType, resourceId, resourceType,
annotation)`; the optional annotation string is the `annot` field. -/
structure Evaluation where
  complianceType : ComplianceType
  resourceId : String
  resourceType : String
  annot : Option String
deriving DecidableEq, Repr

/-- The per-role age computation of `evaluate_periodic`: when
`role_data.get('RoleLastUsed')` is truthy (present and non-empty), the days
of `CURRENT_TIME - last_used.get('LastUsedDate')` — `none` models the
`TypeError` when `LastUsedDate` is missing from a non-empty sub-dict —
otherwise the days of `CURRENT_TIME - role_data.get('CreateDate')`. -/
def roleDiff (now : Int) (rd : RoleData) : Option Int :=
  match rd.roleLastUsed with
  | some lu =>
    if !lu.isEmpty then
      (pyGet lu "LastUsedDate").map (fun t => Int.fdiv (now - t) 86400)
    else some (Int.fdiv (now - rd.createDate) 86400)
  | none => some (Int.fdiv (now - rd.createDate) 86400)

/-- The body of the `evaluate_periodic` loop for one role: classify
`COMPLIANT` when `diff <= days_before_unused`, else `NON_COMPLIANT` with the
threshold-bearing annotation; `none` propagates a per-role `TypeError`. -/
def evalRole (now d : Int) (rd : RoleData) : Option Evaluation :=
  match roleDiff now rd with
  | none => none
  | some diff =>
    if diff ≤ d then
      some ⟨ComplianceType.COMPLIANT, rd.roleName, APPLICABLE_RESOURCES.headD "", none⟩
    else
      some ⟨ComplianceType.NON_COMPLIANT, rd.roleName, APPLICABLE_RESOURCES.headD "",
        some ("This AWS IAM Role has not been used within the last " ++
          toString d ++ " day(s)")⟩

/-- `IAM_ROLE_NOT_USED.evaluate_periodic` over the materialized role list:
one `Evaluation` appended per role, all judged against the same instant
`now` (the module-level `CURRENT_TIME`) and the validated threshold `d`
(the integer at `DaysBeforeUnused` in the validated parameter dict); a
runtime error at any role aborts the whole run with no partial result. -/
def evaluate_periodic (now d : Int) : List RoleData → Option (List Evaluation)
  | [] => some []
  | rd :: rest =>
    match evalRole now d rd, evaluate_periodic now d rest with
    | some e, some es => some (e :: es)
    | _, _ => none

/-- One evaluation run as the host sees it: the instant at which the run is
triggered (its own clock reading), the validated threshold, and the roles
listed during the run. -/
structure EvalRun where
  runInstant : Int
  threshold : Int
  roles : List RoleData
deriving DecidableEq, Repr

/-- A process lifetime, modelled from the module-level binding
`CURRENT_TIME = datetime.now(timezone.utc)`: the clock is sampled once when
the module loads, and every subsequent run in the process evaluates with
that load-time sample — the run's own clock reading `runInstant` is never
consulted by the code. -/
def runResults (moduleLoadTime : Int) (runs : List EvalRun) :
    List (Option (List Evaluation)) :=
  runs.map (fun r => evaluate_periodic moduleLoadTime r.threshold r.roles)

/-- Decimal numeral of a natural number, Python's `str(N)` for `N ≥ 0`. -/
def natToDigits (n : Nat) : List Char :=
  if h : n < 10 then [Char.ofNat (48 + n)]
  else natToDigits (n / 10) ++ [Char.ofNat (48 + n % 10)]
decreasing_by exact Nat.div_lt_self (by omega) (by omega)

/-- Python `str(N)` for a natural number `N`, as a Lean string. -/
def decimalRepr (n : Nat) : String := String.mk (natToDigits n)

theorem pyGet_pySet_self {α : Type} (m : List (String × α)) (k : String) (v : α) :
    pyGet (pySet m k v) k = some v := by
  induction m with
  | nil => simp [pySet, pyGet]
  | cons p rest ih =>
    obtain ⟨k', v'⟩ := p
    by_cases h : k' = k
    · subst h; simp [pySet, pyGet]
    · simp [pySet, pyGet, h, ih]

theorem pySet_pySet_self {α : Type} (m : List (String × α)) (k : String) (v w : α) :
    pySet (pySet m k v) k w = pySet m k w := by
  induction m with
  | nil => simp [pySet]
  | cons p rest ih =>
    obtain ⟨k', v'⟩ := p
    by_cases h : k' = k
    · subst h; simp [pySet]
    · simp [pySet, h, ih]

theorem pyGet_pySet_ne {α : Type} (m : List (String × α)) (k k' : String) (v : α)
    (h : k' ≠ k) : pyGet (pySet m k v) k' = pyGet m k' := by
  induction m with
  | nil => simp [pySet, pyGet, Ne.symm h]
  | cons p rest ih =>
    obtain ⟨k'', v'⟩ := p
    by_cases hk : k'' = k
    · subst hk
      simp [pySet, pyGet, Ne.symm h]
    · by_cases hk' : k'' = k'
      · subst hk'; simp [pySet, pyGet, hk]
      · simp [pySet, pyGet, hk, hk', ih]

theorem isDig_digitChar : ∀ m, m < 10 → isDig (Char.ofNat (48 + m)) = true := by decide

theorem toNat_digitChar : ∀ m, m < 10 → (Char.ofNat (48 + m)).toNat = 48 + m := by decide

theorem natToDigits_ne_nil (n : Nat) : natToDigits n ≠ [] := by
  rw [natToDigits]; split <;> simp

theorem natToDigits_digits (n : Nat) : ∀ c ∈ natToDigits n, isDig c = true := by
  induction n using Nat.strong_induction_on with
  | _ n ih =>
    rw [natToDigits]
    split
    · rename_i h
      intro c hc
      simp only [List.mem_singleton] at hc
      subst hc
      exact isDig_digitChar n h
    · rename_i h
      intro c hc
      rcases List.mem_append.mp hc with hc | hc
      · exact ih (n / 10) (Nat.div_lt_self (by omega) (by omega)) c hc
      · simp only [List.mem_singleton] at hc
        subst hc
        exact isDig_digitChar (n % 10) (Nat.mod_lt _ (by omega))

theorem foldl_natToDigits (n : Nat) :
    (natToDigits n).foldl (fun a c => a * 10 + (c.toNat - 48)) 0 = n := by
  induction n using Nat.strong_induction_on with
  | _ n ih =>
    rw [natToDigits]
    split
    · rename_i h
      simp [List.foldl, toNat_digitChar n h]
    · rename_i h
      rw [List.foldl_append, ih (n / 10) (Nat.div_lt_self (by omega) (by omega))]
      simp only [List.foldl, toNat_digitChar (n % 10) (Nat.mod_lt _ (by omega))]
      omega

theorem goDigits_digits (l : List Char) (hl : ∀ c ∈ l, isDig c = true) (acc : Nat) :
    goDigits acc l = some (l.foldl (fun a c => a * 10 + (c.toNat - 48)) acc) := by
  induction l generalizing acc with
  | nil => rfl
  | cons c cs ih =>
    have hc : isDig c = true := hl c (by simp)
    rw [goDigits.eq_def]
    simp only [hc, if_true, List.foldl]
    exact ih (fun x hx => hl x (List.mem_cons_of_mem c hx)) _

theorem parseUDigits_natToDigits (n : Nat) : parseUDigits (natToDigits n) = some n := by
  cases hl : natToDigits n with
  | nil => exact absurd hl (natToDigits_ne_nil n)
  | cons c cs =>
    have hdig : ∀ x ∈ c :: cs, isDig x = true := by
      rw [← hl]; exact natToDigits_digits n
    have hc : isDig c = true := hdig c (by simp)
    have hfold : (c :: cs).foldl (fun a c => a * 10 + (c.toNat - 48)) 0 = n := by
      rw [← hl]; exact foldl_natToDigits n
    simp only [List.foldl, Nat.zero_mul, Nat.zero_add] at hfold
    simp only [parseUDigits, hc, if_pos]
    rw [goDigits_digits cs (fun x hx => hdig x (List.mem_cons_of_mem c hx))]
    rw [hfold]

theorem isDig_not_space (c : Char) (h : isDig c = true) : isPySpace c = false := by
  simp only [isDig, Bool.and_eq_true, decide_eq_true_eq] at h
  simp only [isPySpace, Bool.or_eq_false_iff, beq_eq_false_iff_ne, ne_eq]
  omega

theorem isDig_not_sign (c : Char) (h : isDig c = true) : c ≠ '-' ∧ c ≠ '+' := by
  refine ⟨fun hq => ?_, fun hq => ?_⟩ <;> (subst hq; revert h; decide)

theorem dropWhile_digits (l : List Char) (h : ∀ c ∈ l, isDig c = true) :
    l.dropWhile isPySpace = l := by
  cases l with
  | nil => rfl
  | cons c cs =>
    have hns := isDig_not_space c (h c (by simp))
    simp [List.dropWhile, hns]

theorem pyStrToInt_decimalRepr (n : Nat) : pyStrToInt (decimalRepr n) = some (n : Int) := by
  have hd := natToDigits_digits n
  cases hl : natToDigits n with
  | nil => exact absurd hl (natToDigits_ne_nil n)
  | cons c cs =>
    have hdig : ∀ x ∈ c :: cs, isDig x = true := by rw [← hl]; exact hd
    have hc : isDig c = true := hdig c (by simp)
    obtain ⟨h1, h2⟩ := isDig_not_sign c hc
    have hp : parseUDigits (c :: cs) = some n := by
      rw [← hl]; exact parseUDigits_natToDigits n
    have htl : (decimalRepr n).toList = c :: cs := by rw [← hl]; rfl
    unfold pyStrToInt
    simp only [htl, dropWhile_digits _ hdig,
      dropWhile_digits _ (fun x hx => hdig x (List.mem_reverse.mp hx)),
      List.reverse_reverse, h1, h2, if_false, hp]
    rfl

theorem pyGet_substituted (m : PyDict) :
    pyGet (if vTruthyOpt (pyGet m "DaysBeforeUnused") then m
           else pySet m "DaysBeforeUnused" (Value.VInt DEFAULT_DAYS))
      "DaysBeforeUnused" = some (substitutedValue m) := by
  cases ht : vTruthyOpt (pyGet m "DaysBeforeUnused") with
  | false => simp [ht, substitutedValue, pyGet_pySet_self]
  | true =>
    cases hg : pyGet m "DaysBeforeUnused" with
    | none => rw [hg] at ht; simp [vTruthyOpt] at ht
    | some v =>
      rw [hg] at ht
      simp [substitutedValue, hg, ht]

theorem evalRole_fields (now d : Int) (rd : RoleData) (e : Evaluation)
    (h : evalRole now d rd = some e) :
    e.resourceId = rd.roleName ∧ e.resourceType = "AWS::IAM::Role" := by
  unfold evalRole at h
  split at h
  · exact Option.noConfusion h
  · split at h <;>
      (simp only [Option.some.injEq] at h; subst h; exact ⟨rfl, rfl⟩)

/-- C1: for any role whose age computation succeeds with `ageInDays = a`, the
evaluator emits a result, and that result is `COMPLIANT` exactly when
`a ≤ d`, the configured `daysBeforeUnused`; the boundary `a = d` is thus
compliant. -/
theorem c1_compliant_iff_age_le_threshold (now d a : Int) (rd : RoleData)
    (h : roleDiff now rd = some a) :
    ∃ e, evalRole now d rd = some e ∧
      (e.complianceType = ComplianceType.COMPLIANT ↔ a ≤ d) := by
  unfold evalRole
  rw [h]
  by_cases hle : a ≤ d
  · refine ⟨⟨ComplianceType.COMPLIANT, rd.roleName,
      APPLICABLE_RESOURCES.headD "", none⟩, ?_, ?_⟩
    · simp [hle]
    · simp [hle]
  · refine ⟨⟨ComplianceType.NON_COMPLIANT, rd.roleName,
      APPLICABLE_RESOURCES.headD "",
      some ("This AWS IAM Role has not been used within the last " ++
        toString d ++ " day(s)")⟩, ?_, ?_⟩
    · simp [hle]
    · simp [hle]

/-- C1 witness: a role whose age is exactly the threshold (5 days old,
threshold 5) is classified `COMPLIANT`. -/
theorem c1_compliant_iff_age_le_threshold_witness :
    ∃ e, evalRole 432000 5 ⟨"config-rule", 0, some [("LastUsedDate", 0)]⟩ = some e ∧
      (e.complianceType = ComplianceType.COMPLIANT ↔ (5 : Int) ≤ 5) :=
  c1_compliant_iff_age_le_threshold 432000 5 5
    ⟨"config-rule", 0, some [("LastUsedDate", 0)]⟩ (by decide)

/-- C2: the reference instant of the staleness computation is the
`LastUsedDate` of a present (truthy) `RoleLastUsed`, and the role's
`CreateDate` when `RoleLastUsed` is absent: a role never used since creation
is judged by its creation date. -/
theorem c2_reference_instant (now : Int) (rd : RoleData) :
    (∀ lu t, rd.roleLastUsed = some lu → pyGet lu "LastUsedDate" = some t →
      roleDiff now rd = some (Int.fdiv (now - t) 86400)) ∧
    (rd.roleLastUsed = none →
      roleDiff now rd = some (Int.fdiv (now - rd.createDate) 86400)) := by
  constructor
  · intro lu t h1 h2
    have hne : lu.isEmpty = false := by
      cases lu
      · simp [pyGet] at h2
      · simp
    simp [roleDiff, h1, hne, h2]
  · intro h1
    simp [roleDiff, h1]

/-- C2 witness: a role last used at 43200 s is judged from that instant; a
role with no `RoleLastUsed` field is judged from its creation date. -/
theorem c2_reference_instant_witness :
    roleDiff 86400 ⟨"r1", 0, some [("LastUsedDate", 43200)]⟩ =
      some (Int.fdiv (86400 - 43200) 86400) ∧
    roleDiff 86400 ⟨"r2", 43200, none⟩ =
      some (Int.fdiv (86400 - 43200) 86400) :=
  ⟨(c2_reference_instant 86400 ⟨"r1", 0, some [("LastUsedDate", 43200)]⟩).1
      [("LastUsedDate", 43200)] 43200 rfl (by decide),
   (c2_reference_instant 86400 ⟨"r2", 43200, none⟩).2 rfl⟩

/-- C3: a `NON_COMPLIANT` result carries exactly the annotation
`This AWS IAM Role has not been used within the last {d} day(s)` built from
the configured threshold `d`, and a `COMPLIANT` result carries no
annotation. -/
theorem c3_annotation_policy (now d : Int) (rd : RoleData) (e : Evaluation)
    (h : evalRole now d rd = some e) :
    (e.complianceType = ComplianceType.NON_COMPLIANT →
      e.annot = some ("This AWS IAM Role has not been used within the last " ++
        toString d ++ " day(s)")) ∧
    (e.complianceType = ComplianceType.COMPLIANT → e.annot = none) := by
  unfold evalRole at h
  split at h
  · exact Option.noConfusion h
  · split at h <;>
      (simp only [Option.some.injEq] at h; subst h;
       constructor <;> intro hc <;> simp_all)

/-- C3 witness: a role 100 days stale against threshold 80 yields
`NON_COMPLIANT` with the annotation naming 80, not 100. -/
theorem c3_annotation_policy_witness :
    ((⟨ComplianceType.NON_COMPLIANT, "AWS-CodePipeline-Service", "AWS::IAM::Role",
        some ("This AWS IAM Role has not been used within the last " ++
          toString (80 : Int) ++ " day(s)")⟩ : Evaluation).complianceType =
        ComplianceType.NON_COMPLIANT →
      (⟨ComplianceType.NON_COMPLIANT, "AWS-CodePipeline-Service", "AWS::IAM::Role",
        some ("This AWS IAM Role has not been used within the last " ++
          toString (80 : Int) ++ " day(s)")⟩ : Evaluation).annot =
        some ("This AWS IAM Role has not been used within the last " ++
          toString (80 : Int) ++ " day(s)")) ∧
    ((⟨ComplianceType.NON_COMPLIANT, "AWS-CodePipeline-Service", "AWS::IAM::Role",
        some ("This AWS IAM Role has not been used within the last " ++
          toString (80 : Int) ++ " day(s)")⟩ : Evaluation).complianceType =
        ComplianceType.COMPLIANT →
      (⟨ComplianceType.NON_COMPLIANT, "AWS-CodePipeline-Service", "AWS::IAM::Role",
        some ("This AWS IAM Role has not been used within the last " ++
          toString (80 : Int) ++ " day(s)")⟩ : Evaluation).annot = none) :=
  c3_annotation_policy 8640000 80 ⟨"AWS-CodePipeline-Service", 0, none⟩
    ⟨ComplianceType.NON_COMPLIANT, "AWS-CodePipeline-Service", "AWS::IAM::Role",
      some ("This AWS IAM Role has not been used within the last " ++
        toString (80 : Int) ++ " day(s)")⟩ (by decide)

/-- C10: a role record whose `RoleLastUsed` field is present but an empty
(falsy) mapping is evaluated exactly like a record with no `RoleLastUsed`
field: the age falls back to the creation date and the evaluation does not
fail. -/
theorem c10_empty_role_last_used (now d cd : Int) (name : String) :
    evalRole now d ⟨name, cd, some []⟩ = evalRole now d ⟨name, cd, none⟩ ∧
    roleDiff now ⟨name, cd, some []⟩ = some (Int.fdiv (now - cd) 86400) ∧
    (evalRole now d ⟨name, cd, some []⟩).isSome = true := by
  have h1 : roleDiff now ⟨name, cd, some []⟩ = some (Int.fdiv (now - cd) 86400) := by
    simp [roleDiff]
  have h2 : roleDiff now ⟨name, cd, none⟩ = some (Int.fdiv (now - cd) 86400) := by
    simp [roleDiff]
  refine ⟨?_, h1, ?_⟩
  · unfold evalRole; rw [h1, h2]
  · unfold evalRole
    rw [h1]
    split
    · rename_i heq
      exact Option.noConfusion heq
    · split <;> rfl

/-- C4: when the `DaysBeforeUnused` key is absent or its value is falsy, the
validator substitutes the default 90: it succeeds, and the returned
configuration holds `DaysBeforeUnused = 90`. -/
theorem c4_default_substitution (m : PyDict)
    (h : vTruthyOpt (pyGet m "DaysBeforeUnused") = false) :
    evaluate_parameters m =
      Except.ok (pySet m "DaysBeforeUnused" (Value.VInt 90)) ∧
    pyGet (pySet m "DaysBeforeUnused" (Value.VInt 90)) "DaysBeforeUnused" =
      some (Value.VInt 90) := by
  refine ⟨?_, pyGet_pySet_self m "DaysBeforeUnused" (Value.VInt 90)⟩
  simp [evaluate_parameters, h, DEFAULT_DAYS, pyGet_pySet_self,
    pySet_pySet_self, pyIntOf]

/-- C4 witness: an empty parameter map validates to the 90-day default. -/
theorem c4_default_substitution_witness :
    evaluate_parameters [] =
      Except.ok (pySet [] "DaysBeforeUnused" (Value.VInt 90)) ∧
    pyGet (pySet ([] : PyDict) "DaysBeforeUnused" (Value.VInt 90))
      "DaysBeforeUnused" = some (Value.VInt 90) :=
  c4_default_substitution [] (by decide)

/-- C5: for every natural number `N`, validating
`{"DaysBeforeUnused": str(N)}` succeeds with the value `N`; in particular
the string `"0"` is truthy, so an explicit `0` is kept and not overwritten
by the default 90. -/
theorem c5_explicit_nonnegative_value (N : Nat) :
    evaluate_parameters [("DaysBeforeUnused", Value.VStr (decimalRepr N))] =
      Except.ok [("DaysBeforeUnused", Value.VInt (N : Int))] := by
  have h1 : pyStrToInt (decimalRepr N) = some (N : Int) := pyStrToInt_decimalRepr N
  have ht : vTruthy (Value.VStr (decimalRepr N)) = true := by
    have h2 : (decimalRepr N).data = natToDigits N := rfl
    simp [vTruthy, h2, natToDigits_ne_nil N]
  have hnn : ¬((N : Int) < 0) := by
    exact not_lt.mpr (Int.natCast_nonneg N)
  simp [evaluate_parameters, pyGet, pySet, vTruthyOpt, ht, pyIntOf, h1, hnn]

/-- C6: the validator fails with `InvalidParametersError` exactly when the
(default-substituted) value does not parse as an integer or parses to a
negative one, and each failure carries its exact literal message. -/
theorem c6_invalid_parameters_iff (m : PyDict) :
    ((∃ msg, evaluate_parameters m = Except.error (PyErr.invalidParameters msg)) ↔
      (pyIntOf (substitutedValue m) = none ∨
       ∃ n, pyIntOf (substitutedValue m) = some n ∧ n < 0)) ∧
    (pyIntOf (substitutedValue m) = none →
      evaluate_parameters m = Except.error (PyErr.invalidParameters
        "The parameter \"DaysBeforeUnused\" must be a integer")) ∧
    (∀ n, pyIntOf (substitutedValue m) = some n → n < 0 →
      evaluate_parameters m = Except.error (PyErr.invalidParameters
        "The parameter \"DaysBeforeUnused\" must be greater than or equal to 0")) := by
  have hkey := pyGet_substituted m
  cases hi : pyIntOf (substitutedValue m) with
  | none =>
    have he : evaluate_parameters m = Except.error (PyErr.invalidParameters
        "The parameter \"DaysBeforeUnused\" must be a integer") := by
      simp only [evaluate_parameters]
      rw [hkey]
      simp [hi]
    refine ⟨⟨fun _ => Or.inl rfl, fun _ => ⟨_, he⟩⟩, fun _ => he, ?_⟩
    intro n hn
    exact Option.noConfusion hn
  | some n =>
    by_cases hneg : n < 0
    · have he : evaluate_parameters m = Except.error (PyErr.invalidParameters
          "The parameter \"DaysBeforeUnused\" must be greater than or equal to 0") := by
        simp only [evaluate_parameters]
        rw [hkey]
        simp [hi, hneg]
      refine ⟨⟨fun _ => Or.inr ⟨n, rfl, hneg⟩, fun _ => ⟨_, he⟩⟩, ?_, ?_⟩
      · intro hc
        exact Option.noConfusion hc
      · intro n' hn' _
        exact he
    · have he : evaluate_parameters m = Except.ok
          (pySet (if vTruthyOpt (pyGet m "DaysBeforeUnused") then m
                  else pySet m "DaysBeforeUnused" (Value.VInt DEFAULT_DAYS))
            "DaysBeforeUnused" (Value.VInt n)) := by
        simp only [evaluate_parameters]
        rw [hkey]
        simp [hi, hneg]
      refine ⟨⟨?_, ?_⟩, ?_, ?_⟩
      · rintro ⟨msg, hmsg⟩
        rw [he] at hmsg
        exact Except.noConfusion hmsg
      · rintro (hnone | ⟨n', hn', hlt⟩)
        · exact Option.noConfusion hnone
        · injection hn' with hh
          subst hh
          exact absurd hlt hneg
      · intro hnone
        exact Option.noConfusion hnone
      · intro n' hn' hlt
        injection hn' with hh
        subst hh
        exact absurd hlt hneg

/-- C6 witness: the non-parseable value `"sdfsdf"` is rejected with the
exact integer-message, via the theorem's second conjunct. -/
theorem c6_invalid_parameters_iff_witness :
    evaluate_parameters [("DaysBeforeUnused", Value.VStr "sdfsdf")] =
      Except.error (PyErr.invalidParameters
        "The parameter \"DaysBeforeUnused\" must be a integer") :=
  (c6_invalid_parameters_iff [("DaysBeforeUnused", Value.VStr "sdfsdf")]).2.1
    (by decide)

/-- C9 counterexample: `evaluate_parameters` is not side-effect free on its
input dict.  It assigns into the dict it was given and returns that same
dict, so the final state of the supplied map (the `ok` payload) differs
from the map as supplied: `{"DaysBeforeUnused": "5"}` ends up holding the
integer `5` in place of the string `"5"`. -/
theorem c9_mutates_input_counterexample :
    evaluate_parameters [("DaysBeforeUnused", Value.VStr "5")] =
      Except.ok [("DaysBeforeUnused", Value.VInt 5)] ∧
    ([("DaysBeforeUnused", Value.VInt 5)] : PyDict) ≠
      [("DaysBeforeUnused", Value.VStr "5")] :=
  ⟨by rfl, by decide⟩

/-- C9 (amended): on success the input dict has been mutated in place — its
`DaysBeforeUnused` entry now holds the validated non-negative integer, and
the returned configuration is that same mutated dict — while every other
key keeps the value it had in the supplied map. -/
theorem c9_amended_mutation_frame (m m' : PyDict)
    (h : evaluate_parameters m = Except.ok m') :
    (∃ n : Int, 0 ≤ n ∧ pyGet m' "DaysBeforeUnused" = some (Value.VInt n)) ∧
    (∀ k, k ≠ "DaysBeforeUnused" → pyGet m' k = pyGet m k) := by
  have hkey := pyGet_substituted m
  simp only [evaluate_parameters] at h
  rw [hkey] at h
  cases hi : pyIntOf (substitutedValue m) with
  | none => simp [hi] at h
  | some n =>
    by_cases hneg : n < 0
    · simp [hi, hneg] at h
    · simp [hi, hneg] at h
      refine ⟨⟨n, not_lt.mp hneg, ?_⟩, ?_⟩
      · rw [← h]
        exact pyGet_pySet_self _ "DaysBeforeUnused" (Value.VInt n)
      · intro k hk
        rw [← h, pyGet_pySet_ne _ _ _ _ hk]
        cases ht : vTruthyOpt (pyGet m "DaysBeforeUnused") with
        | true => simp [ht]
        | false => simp [ht, pyGet_pySet_ne _ _ _ _ hk]

/-- C9 witness: validating `{"DaysBeforeUnused": "5", "Other": "x"}`
updates the `DaysBeforeUnused` entry to the integer 5 and leaves the
`Other` entry unchanged. -/
theorem c9_amended_mutation_frame_witness :
    (∃ n : Int, 0 ≤ n ∧
      pyGet [("DaysBeforeUnused", Value.VInt 5), ("Other", Value.VStr "x")]
        "DaysBeforeUnused" = some (Value.VInt n)) ∧
    (∀ k, k ≠ "DaysBeforeUnused" →
      pyGet [("DaysBeforeUnused", Value.VInt 5), ("Other", Value.VStr "x")] k =
      pyGet [("DaysBeforeUnused", Value.VStr "5"), ("Other", Value.VStr "x")] k) :=
  c9_amended_mutation_frame
    [("DaysBeforeUnused", Value.VStr "5"), ("Other", Value.VStr "x")]
    [("DaysBeforeUnused", Value.VInt 5), ("Other", Value.VStr "x")]
    (by rfl)

/-- C7: the clock is not sampled once per evaluation run — it is the
module-load-time constant `CURRENT_TIME`, shared by every run of the
process.  At the failing input (module loaded at 0; a run triggered two
days later, threshold 1 day, role last used at 0) the run still classifies
the role `COMPLIANT` using the stale load-time instant, although evaluating
with that run's own clock reading (172800 s) yields a different,
`NON_COMPLIANT`, result. -/
theorem c7_clock_shared_across_runs :
    runResults 0
      [⟨0, 1, [⟨"role", 0, some [("LastUsedDate", 0)]⟩]⟩,
       ⟨172800, 1, [⟨"role", 0, some [("LastUsedDate", 0)]⟩]⟩] =
      [some [⟨ComplianceType.COMPLIANT, "role", "AWS::IAM::Role", none⟩],
       some [⟨ComplianceType.COMPLIANT, "role", "AWS::IAM::Role", none⟩]] ∧
    evaluate_periodic 172800 1 [⟨"role", 0, some [("LastUsedDate", 0)]⟩] ≠
      evaluate_periodic 0 1 [⟨"role", 0, some [("LastUsedDate", 0)]⟩] := by
  decide

/-- C8: a successful run emits exactly one result per input role record, in
order; each result carries its record's role name as the resource id, and
every result is tagged with the resource type `AWS::IAM::Role`. -/
theorem c8_one_result_per_role (now d : Int) (roles : List RoleData)
    (evs : List Evaluation) (h : evaluate_periodic now d roles = some evs) :
    evs.length = roles.length ∧
    evs.map (fun e => e.resourceId) = roles.map (fun r => r.roleName) ∧
    (∀ e ∈ evs, e.resourceType = "AWS::IAM::Role") := by
  induction roles generalizing evs with
  | nil =>
    simp only [evaluate_periodic, Option.some.injEq] at h
    subst h
    simp
  | cons rd rest ih =>
    simp only [evaluate_periodic] at h
    cases h1 : evalRole now d rd with
    | none => rw [h1] at h; simp at h
    | some e =>
      cases h2 : evaluate_periodic now d rest with
      | none => rw [h1, h2] at h; simp at h
      | some es =>
        rw [h1, h2] at h
        simp only [Option.some.injEq] at h
        subst h
        obtain ⟨hl, hm, hr⟩ := ih es h2
        obtain ⟨hid, hty⟩ := evalRole_fields now d rd e h1
        refine ⟨by simp [hl], by simp [hm, hid], ?_⟩
        intro x hx
        rcases List.mem_cons.mp hx with hx | hx
        · subst hx; exact hty
        · exact hr x hx

/-- C8 witness: a two-role run returns two results, carrying the two role
names in order, both typed `AWS::IAM::Role`. -/
theorem c8_one_result_per_role_witness :
    ([(⟨ComplianceType.COMPLIANT, "a", "AWS::IAM::Role", none⟩ : Evaluation),
      ⟨ComplianceType.NON_COMPLIANT, "b", "AWS::IAM::Role",
        some ("This AWS IAM Role has not been used within the last " ++
          toString (1 : Int) ++ " day(s)")⟩].length =
      [(⟨"a", 0, some [("LastUsedDate", 0)]⟩ : RoleData), ⟨"b", -864000, none⟩].length) ∧
    ([(⟨ComplianceType.COMPLIANT, "a", "AWS::IAM::Role", none⟩ : Evaluation),
      ⟨ComplianceType.NON_COMPLIANT, "b", "AWS::IAM::Role",
        some ("This AWS IAM Role has not been used within the last " ++
          toString (1 : Int) ++ " day(s)")⟩].map (fun e => e.resourceId) =
      [(⟨"a", 0, some [("LastUsedDate", 0)]⟩ : RoleData), ⟨"b", -864000, none⟩].map
        (fun r => r.roleName)) ∧
    (∀ e ∈ [(⟨ComplianceType.COMPLIANT, "a", "AWS::IAM::Role", none⟩ : Evaluation),
      ⟨ComplianceType.NON_COMPLIANT, "b", "AWS::IAM::Role",
        some ("This AWS IAM Role has not been used within the last " ++
          toString (1 : Int) ++ " day(s)")⟩], e.resourceType = "AWS::IAM::Role") :=
  c8_one_result_per_role 0 1
    [⟨"a", 0, some [("LastUsedDate", 0)]⟩, ⟨"b", -864000, none⟩]
    [⟨ComplianceType.COMPLIANT, "a", "AWS::IAM::Role", none⟩,
     ⟨ComplianceType.NON_COMPLIANT, "b", "AWS::IAM::Role",
       some ("This AWS IAM Role has not been used within the last " ++
         toString (1 : Int) ++ " day(s)")⟩]
    (by decide)
